import Mathlib

/-!
Verification of `gentags.py`: a tool that scans directories for source files
matching configured language extensions, writes a sorted index file and a
config file, then invokes cscope and ctags over that index.

The embedding models:
* the directory traversal of `generate_index` (`os.walk` with in-place
  pruning of `subdirs` by depth and by exclusion list) as a recursive
  walk over a file-system tree;
* the language-group extension tables and their resolution;
* `main` as a function from parsed arguments, the command line, the exit
  codes of the two external tools and an abstract file system to a run
  result (final file system, list of invoked external commands, whether a
  Python exception escaped, whether the empty-index warning fired).

Strings are compared character by character (Python compares strings by
code point), so the order used for the index file is spelled out on
character lists.
-/

/-- A file-system directory: the plain file names directly inside it and its
named subdirectories, mirroring what `os.walk` yields at one directory
(`files` and `subdirs`). -/
inductive FSTree : Type where
  | node : List String → List (String × FSTree) → FSTree

/-- Model of `posixpath.join a b`: if `b` is absolute it wins; a trailing separator on
`a` (or an empty `a`) suppresses the inserted separator. -/
def joinPath (a b : String) : String :=
  if b.data.head? = some '/' then b
  else if a.data.getLast? = some '/' ∨ a = "" then a ++ b
  else a ++ "/" ++ b

/-- The expression `root[len(directory):].count(os.sep)` from `generate_index` line 81:
the number of path separators in the visited path once the first
`len(rootPath)` characters are dropped (`os.sep = '/'`). -/
def sepDepth (rootPath curPath : String) : Nat :=
  (curPath.data.drop rootPath.data.length).count '/'

/-- Python `file.endswith(ext)` on strings, as a suffix test on character
lists. -/
def endsWithExt (s ext : String) : Bool :=
  ext.data.isSuffixOf s.data

/-- The test `any(file.endswith(ext) for ext in types)` from `generate_index` line 90. -/
def fileMatches (types : List String) (f : String) : Bool :=
  types.any (fun ext => endsWithExt f ext)

mutual

/-- The contribution of one visited directory (and whatever is descended
below it) to `files_set` in `generate_index`:
matching files of the directory itself are collected; subdirectories are
cleared when `current_depth >= depth` (line 82) and otherwise filtered
against the exclusion list (line 86) before being descended into. -/
def walk (depth : Int) (exclude types : List String) (rootPath curPath : String) :
    FSTree → List String
  | FSTree.node files subdirs =>
    (files.filter (fun f => fileMatches types f)).map (fun f => joinPath curPath f)
      ++ (if (sepDepth rootPath curPath : Int) ≥ depth then []
          else walkChildren depth exclude types rootPath curPath subdirs)

/-- Descend into each subdirectory whose joined path is not excluded. -/
def walkChildren (depth : Int) (exclude types : List String) (rootPath curPath : String) :
    List (String × FSTree) → List String
  | [] => []
  | (name, t) :: rest =>
    (if joinPath curPath name ∈ exclude then []
     else walk depth exclude types rootPath (joinPath curPath name) t)
      ++ walkChildren depth exclude types rootPath curPath rest

end

/-- Python string comparison, `le` flavour: lexicographic on code points. -/
def charListLe : List Char → List Char → Bool
  | [], _ => true
  | _ :: _, [] => false
  | a :: as, b :: bs =>
    if a < b then true
    else if b < a then false
    else charListLe as bs

/-- The order `sorted` uses on the collected paths. -/
abbrev strLeRel (a b : String) : Prop := charListLe a.data b.data = true

/-- The lines of the index file written by `generate_index`: every root in
`dirs` is walked from its own path, the results are deduplicated (the
Python `set`) and written out sorted (`sorted(files_set)`), one path per
line. -/
def indexLines (dirs : List (String × FSTree)) (depth : Int)
    (exclude types : List String) : List String :=
  List.insertionSort strLeRel
    ((dirs.flatMap (fun p => walk depth exclude types p.1 p.1 p.2)).dedup)

/-- The fixed `FILE_EXTENSIONS` table (lines 121-126). -/
def FILE_EXTENSIONS : List (String × List String) :=
  [("c_cpp", [".c", ".h", ".cpp", ".hpp", ".cxx", ".hxx", ".cc", ".hh",
              ".C", ".H", ".S", ".s"]),
   ("python", [".py", ".pyw", ".pyx", ".pxd", ".pxi"]),
   ("javascript", [".js", ".jsx", ".mjs", ".cjs"]),
   ("typescript", [".ts", ".tsx", ".mts", ".cts"])]

/-- Lookup `FILE_EXTENSIONS[group]` with a miss yielding nothing, as in
`if lang in FILE_EXTENSIONS: extensions.extend(FILE_EXTENSIONS[lang])`. -/
def groupExts (g : String) : List String :=
  (FILE_EXTENSIONS.lookup g).getD []

/-- The list `ALL_EXTENSIONS` (line 129): the concatenation of every group's list. -/
def ALL_EXTENSIONS : List String :=
  FILE_EXTENSIONS.flatMap (fun p => p.2)

/-- Model of `get_language_extensions` (lines 131-139). -/
def get_language_extensions (languages : List String) : List String :=
  if languages.isEmpty then ALL_EXTENSIONS
  else languages.flatMap (fun lang => groupExts lang)

/-- The type resolution in `main` (lines 203-206): `all` anywhere in the
selection yields `ALL_EXTENSIONS`, otherwise the named groups are looked
up. -/
def resolveTypes (ts : List String) : List String :=
  if "all" ∈ ts then ALL_EXTENSIONS else get_language_extensions ts

/-- Abstract file system: maps a file name to its lines when the file
exists. -/
abbrev FileSys : Type := String → Option (List String)

/-- Create or overwrite a file (Python `open(name, "w")` plus writes). -/
def fsWrite (fs : FileSys) (n : String) (c : List String) : FileSys :=
  fun m => if m = n then some c else fs m

/-- Model of `os.remove`. -/
def fsRemove (fs : FileSys) (n : String) : FileSys :=
  fun m => if m = n then none else fs m

/-- The parsed command-line arguments reaching the body of `main`
(the `--verbose` flag only changes the log level and is omitted; the
exclusion list is taken after the `os.path.normpath` pass of line 209).
`dirs` carries, with each requested root path, the directory tree that
`os.walk` would see there; an absent `-d` and `-d` with no values both
yield an empty list, matching `if not dirs`. -/
structure Args where
  dirs : List (String × FSTree)
  depth : Int
  exclude : List String
  types : List String
  index_file : String
  config_file : String
  index_only : Bool
  clean : Bool
  show_config : Bool

/-- The fixed list of artifact names deleted by `--clean` (line 220). -/
def cleanList (a : Args) : List String :=
  [a.index_file, a.config_file, "gentags.cmd",
   "cscope.out", "cscope.in.out", "cscope.po.out", "tags"]

/-- The clean loop: each artifact is removed when present, `if os.path.exists(file): os.remove(file)` for each
artifact name in order. -/
def removeExisting (fs : FileSys) : List String → FileSys
  | [] => fs
  | n :: rest => removeExisting (if (fs n).isSome then fsRemove fs n else fs) rest

/-- The lines of the config file written by `write_config` (lines 38-57). -/
def configLines (a : Args) (types : List String) : List String :=
  ["[global]",
   "filetype = " ++ String.intercalate " " types,
   "depth = " ++ toString a.depth,
   "",
   "[dirs]"]
  ++ a.dirs.map (fun p => "path = " ++ p.1)
  ++ [""]
  ++ (if a.exclude.isEmpty then []
      else ["[exclude_dirs]"] ++ a.exclude.map (fun e => "path = " ++ e))

/-- The observable outcome of one run of `main`: the final file system, the
external commands handed to `subprocess.run` in order, whether a Python
exception escaped `main`, and whether the empty-index warning fired. -/
structure RunResult where
  fs : FileSys
  procs : List String
  raised : Bool
  warned : Bool

/-- Model of `main` (lines 201-255) over the abstract world. `argvLine` is the
space-joined command line written by `save_command`; `cscopeExit` and
`ctagsExit` are the exit statuses the two external tools would return if
invoked (`subprocess.run(..., check=True)` raises on a nonzero status,
caught at line 251, so a ctags failure changes no observable field). The
unconditional `save_command` at line 212 runs before any mode dispatch;
`write_config` raises `ValueError` before opening its file when the
directory list is empty. -/
def runMain (a : Args) (argvLine : String) (cscopeExit ctagsExit : Nat)
    (fs0 : FileSys) : RunResult :=
  let types := resolveTypes a.types
  let fs1 := fsWrite fs0 "gentags.cmd" [argvLine]
  if a.clean then
    ⟨removeExisting fs1 (cleanList a), [], false, false⟩
  else if a.show_config then
    ⟨fs1, [], false, false⟩
  else if a.dirs.isEmpty then
    ⟨fs1, [], true, false⟩
  else
    let fs2 := fsWrite fs1 a.config_file (configLines a types)
    let lines := indexLines a.dirs a.depth a.exclude types
    let fs3 := fsWrite fs2 a.index_file lines
    let warned := lines.isEmpty
    if a.index_only then
      ⟨fs3, [], false, warned⟩
    else
      let cscopeCmd := "cscope -bkq -i " ++ a.index_file
      let ctagsCmd := "ctags -L " ++ a.index_file
      if cscopeExit ≠ 0 then
        ⟨fs3, [cscopeCmd], false, warned⟩
      else
        let _ := ctagsExit
        ⟨fs3, [cscopeCmd, ctagsCmd], false, warned⟩

/-- A sample tree for the boundary checks: a matching file at the root, one
in an immediate child, one in a grandchild. -/
def demoTree : FSTree :=
  FSTree.node ["a.c"]
    [("sub", FSTree.node ["b.c"] [("grand", FSTree.node ["c.c"] [])])]

/-- A sample tree with no file matching the C/C++ extensions. -/
def noMatchTree : FSTree := FSTree.node ["readme.md"] []

/-- The empty file system. -/
def emptyFs : FileSys := fun _ => none

/-- Default-argument run with an empty directory list. -/
def noDirsArgs : Args :=
  Args.mk [] 9999999 [] ["c_cpp"] "gentags.files" "gentags.conf" false false false

/-- A show-config invocation. -/
def showArgs : Args :=
  Args.mk [] 9999999 [] ["c_cpp"] "gentags.files" "gentags.conf" false false true

/-- A clean invocation. -/
def cleanArgs : Args :=
  Args.mk [] 9999999 [] ["c_cpp"] "gentags.files" "gentags.conf" false true false

/-- A file system holding one artifact and one unrelated file. -/
def demoFs : FileSys :=
  fun n => if n = "tags" then some ["tagdata"]
    else if n = "other.txt" then some ["keep me"] else none

/-- A normal-mode run over `demoTree`. -/
def normalArgs : Args :=
  Args.mk [("root", demoTree)] 9999999 [] ["c_cpp"] "gentags.files" "gentags.conf"
    false false false

/-- A normal-mode run in which no file matches the filters. -/
def noMatchArgs : Args :=
  Args.mk [("root", noMatchTree)] 9999999 [] ["c_cpp"] "gentags.files" "gentags.conf"
    false false false

theorem charListLe_total : ∀ as bs : List Char,
    charListLe as bs = true ∨ charListLe bs as = true := by
  intro as
  induction as with
  | nil => intro bs; left; rfl
  | cons a as ih =>
    intro bs
    cases bs with
    | nil => right; rfl
    | cons b bs =>
      rcases lt_trichotomy a b with h | rfl | h
      · left
        simp [charListLe, h]
      · rcases ih bs with h2 | h2
        · left; simp [charListLe, lt_irrefl, h2]
        · right; simp [charListLe, lt_irrefl, h2]
      · right
        simp [charListLe, h]

theorem charListLe_trans : ∀ as bs cs : List Char,
    charListLe as bs = true → charListLe bs cs = true → charListLe as cs = true := by
  intro as
  induction as with
  | nil => intro bs cs h1 h2; rfl
  | cons a as ih =>
    intro bs cs h1 h2
    cases bs with
    | nil => simp [charListLe] at h1
    | cons b bs =>
      cases cs with
      | nil => simp [charListLe] at h2
      | cons c cs =>
        rcases lt_trichotomy a b with hab | rfl | hab
        · rcases lt_trichotomy b c with hbc | rfl | hbc
          · simp [charListLe, lt_trans hab hbc]
          · simp [charListLe, hab]
          · simp [charListLe, lt_asymm hbc, hbc] at h2
        · rcases lt_trichotomy a c with hac | rfl | hac
          · simp [charListLe, hac]
          · simp only [charListLe, lt_irrefl, if_false] at h1 h2 ⊢
            exact ih bs cs h1 h2
          · simp [charListLe, lt_asymm hac, hac] at h2
        · simp [charListLe, lt_asymm hab, hab] at h1

theorem walkChildren_append (depth : Int) (exclude types : List String)
    (rootPath curPath : String) (l1 l2 : List (String × FSTree)) :
    walkChildren depth exclude types rootPath curPath (l1 ++ l2)
      = walkChildren depth exclude types rootPath curPath l1
        ++ walkChildren depth exclude types rootPath curPath l2 := by
  induction l1 with
  | nil => simp [walkChildren]
  | cons p rest ih =>
    obtain ⟨name, t⟩ := p
    simp [walkChildren, ih, List.append_assoc]

/-- An excluded subdirectory contributes nothing: the walk result does not
depend on the excluded subtree at all. -/
theorem walk_excluded (depth : Int) (exclude types : List String)
    (rootPath curPath : String) (files : List String)
    (pre post : List (String × FSTree)) (name : String) (t : FSTree)
    (h : joinPath curPath name ∈ exclude) :
    walk depth exclude types rootPath curPath
        (FSTree.node files (pre ++ (name, t) :: post))
      = walk depth exclude types rootPath curPath (FSTree.node files (pre ++ post)) := by
  by_cases hd : (sepDepth rootPath curPath : Int) ≥ depth
  · simp only [walk, if_pos hd]
  · simp only [walk, if_neg hd, walkChildren_append, walkChildren, if_pos h,
      List.nil_append]

theorem removeExisting_apply : ∀ (L : List String) (fs : FileSys) (n : String),
    removeExisting fs L n = if n ∈ L then none else fs n := by
  intro L
  induction L with
  | nil => intro fs n; simp [removeExisting]
  | cons m rest ih =>
    intro fs n
    simp only [removeExisting]
    rw [ih]
    by_cases hn : n ∈ rest
    · simp [hn, List.mem_cons]
    · by_cases hnm : n = m
      · subst hnm
        cases hfs : fs n <;> simp [hn, hfs, fsRemove, List.mem_cons]
      · cases hfs : fs m <;> simp [hn, hnm, hfs, fsRemove, List.mem_cons]

/-- C1: at every directory visited during traversal, whenever its depth
relative to its root (count of path separators beyond the root, the code's
own measure) is at least `maxDepth`, no subdirectory is descended into,
yet the directory's own files matching the configured extensions are still
collected; and in the concrete depth-1 boundary case the index holds the
root-level and immediate-child files but not the grandchild file. -/
theorem c1_depth_limit :
    (∀ (depth : Int) (exclude types : List String) (rootPath curPath : String)
        (files : List String) (subdirs : List (String × FSTree)),
        depth ≤ (sepDepth rootPath curPath : Int) →
        walk depth exclude types rootPath curPath (FSTree.node files subdirs)
          = (files.filter (fun f => fileMatches types f)).map
              (fun f => joinPath curPath f))
    ∧ indexLines [("root", demoTree)] 1 [] [".c"] = ["root/a.c", "root/sub/b.c"] := by
  constructor
  · intro depth exclude types rootPath curPath files subdirs h
    simp only [walk, ge_iff_le, if_pos h, List.append_nil]
  · simp only [indexLines, demoTree, walk, walkChildren]
    decide

/-- Witness for C1: a directory of depth 2 under its root, visited with
`maxDepth = 2`, contributes exactly its own matching file and nothing from
its subdirectory. -/
theorem c1_depth_limit_witness :
    walk 2 [] [".py"] "r" "r/a/b"
        (FSTree.node ["m.py", "x.txt"] [("z", FSTree.node ["n.py"] [])])
      = ["r/a/b/m.py"] := by
  have h := c1_depth_limit.1 2 [] [".py"] "r" "r/a/b" ["m.py", "x.txt"]
    [("z", FSTree.node ["n.py"] [])] (by decide)
  rw [h]
  decide

/-- C2 (amended): exclusion is applied to subdirectories encountered during
the traversal, comparing the root-joined path against the exclusion set:
such a subdirectory is never descended into and nothing below it reaches
the index — the results at the walk level and at the index level do not
depend on the excluded subtree at all, whatever extensions it holds.
A scanned root directory itself is not subject to this filter. -/
theorem c2_excluded_subdir :
    (∀ (depth : Int) (exclude types : List String) (rootPath curPath : String)
        (files : List String) (pre post : List (String × FSTree))
        (name : String) (t : FSTree),
        joinPath curPath name ∈ exclude →
        walk depth exclude types rootPath curPath
            (FSTree.node files (pre ++ (name, t) :: post))
          = walk depth exclude types rootPath curPath
              (FSTree.node files (pre ++ post)))
    ∧ (∀ (dirs : List (String × FSTree)) (depth : Int)
        (exclude types : List String) (rootPath : String) (files : List String)
        (pre post : List (String × FSTree)) (name : String) (t : FSTree),
        joinPath rootPath name ∈ exclude →
        indexLines ((rootPath, FSTree.node files (pre ++ (name, t) :: post)) :: dirs)
            depth exclude types
          = indexLines ((rootPath, FSTree.node files (pre ++ post)) :: dirs)
              depth exclude types) := by
  refine ⟨walk_excluded, ?_⟩
  intro dirs depth exclude types rootPath files pre post name t h
  simp only [indexLines, List.flatMap_cons, walk_excluded _ _ _ _ _ _ _ _ _ _ h]

/-- Witness for C2: excluding `root/sub` makes the walk blind to the whole
`sub` subtree even though it holds a matching `.c` file. -/
theorem c2_excluded_subdir_witness :
    walk 9999999 ["root/sub"] [".c"] "root" "root"
        (FSTree.node ["a.c"] ([] ++ ("sub", FSTree.node ["b.c"] []) :: []))
      = walk 9999999 ["root/sub"] [".c"] "root" "root"
          (FSTree.node ["a.c"] ([] ++ [])) :=
  c2_excluded_subdir.1 9999999 ["root/sub"] [".c"] "root" "root" ["a.c"] [] []
    "sub" (FSTree.node ["b.c"] []) (by decide)

/-- Counterexample to C2 as stated: a scanned root directory whose
(already normal-form) path is listed in the exclusion set is still
traversed, and its descendants appear in the produced index. -/
theorem c2_counterexample :
    ("src" : String) ∈ (["src"] : List String)
    ∧ indexLines
        [("src", FSTree.node ["a.c"] [("sub", FSTree.node ["b.c"] [])])]
        9999999 ["src"] [".c"]
      = ["src/a.c", "src/sub/b.c"]
    ∧ ("src/sub/b.c" : String) ∈ indexLines
        [("src", FSTree.node ["a.c"] [("sub", FSTree.node ["b.c"] [])])]
        9999999 ["src"] [".c"] := by
  refine ⟨by decide, ?_, ?_⟩ <;>
    simp only [indexLines, walk, walkChildren] <;> decide

/-- C8: any type selection containing `all` resolves to `ALL_EXTENSIONS`,
which is exactly the union (concatenation) of the extension lists of the
four fixed language groups and holds no duplicate entry. -/
theorem c8_all_union :
    (∀ ts : List String, "all" ∈ ts → resolveTypes ts = ALL_EXTENSIONS)
    ∧ ALL_EXTENSIONS
        = groupExts "c_cpp" ++ groupExts "python" ++ groupExts "javascript"
            ++ groupExts "typescript"
    ∧ ALL_EXTENSIONS.Nodup := by
  refine ⟨?_, by decide, by decide⟩
  intro ts h
  simp [resolveTypes, h]

/-- Witness for C8: a selection mixing a named group with `all`. -/
theorem c8_all_union_witness :
    resolveTypes ["c_cpp", "all"] = ALL_EXTENSIONS :=
  c8_all_union.1 ["c_cpp", "all"] (by decide)

/-- C10: an empty language selection (a bare `--types`) resolves to the full
`ALL_EXTENSIONS` list, the same as selecting `all`, both inside
`get_language_extensions` and through the resolution done by `main`. -/
theorem c10_empty_selection :
    get_language_extensions [] = ALL_EXTENSIONS
    ∧ resolveTypes [] = ALL_EXTENSIONS := by
  constructor
  · rfl
  · decide

/-- C3: in every run that reaches index generation (non-empty directory
list, not clean, not show-config), the index file is written and its lines
are duplicate-free and sorted ascending in the lexicographic code-point
order, one path per line — whatever the roots, including overlapping
ones. -/
theorem c3_index_sorted_nodup (a : Args) (argv : String) (ce te : Nat)
    (fs0 : FileSys) (h1 : a.clean = false) (h2 : a.show_config = false)
    (h3 : a.dirs.isEmpty = false) :
    (runMain a argv ce te fs0).fs a.index_file
      = some (indexLines a.dirs a.depth a.exclude (resolveTypes a.types))
    ∧ (indexLines a.dirs a.depth a.exclude (resolveTypes a.types)).Nodup
    ∧ List.Sorted strLeRel
        (indexLines a.dirs a.depth a.exclude (resolveTypes a.types)) := by
  refine ⟨?_, ?_, ?_⟩
  · simp only [runMain, h1, h2, h3, Bool.false_eq_true, if_false]
    split <;> (try split) <;> simp [fsWrite]
  · simp only [indexLines]
    exact ((List.perm_insertionSort strLeRel _).nodup_iff).mpr (List.nodup_dedup _)
  · haveI : IsTotal String strLeRel := ⟨fun x y => charListLe_total x.data y.data⟩
    haveI : IsTrans String strLeRel :=
      ⟨fun x y z hxy hyz => charListLe_trans x.data y.data z.data hxy hyz⟩
    simp only [indexLines]
    exact List.sorted_insertionSort strLeRel _

/-- Witness for C3: two overlapping scans of the same root still give a
duplicate-free sorted index. -/
theorem c3_index_sorted_nodup_witness :
    (indexLines [("root", demoTree), ("root", demoTree)] 9999999 [] [".c"]).Nodup
    ∧ List.Sorted strLeRel
        (indexLines [("root", demoTree), ("root", demoTree)] 9999999 [] [".c"]) := by
  have h := c3_index_sorted_nodup
    (Args.mk [("root", demoTree), ("root", demoTree)] 9999999 [] ["c_cpp"]
      "gentags.files" "gentags.conf" true false false)
    "gentags.py -d root root -t c_cpp" 0 0 emptyFs rfl rfl rfl
  exact ⟨h.2.1, h.2.2⟩

/-- C4 (amended): with an empty directory list (and neither clean nor
show-config mode), the run raises the configuration error before any
traversal: no external process is invoked and nothing besides the command
record is written — but the command record file `gentags.cmd` has already
been written by the unconditional `save_command` step. -/
theorem c4_config_error (a : Args) (argv : String) (ce te : Nat) (fs0 : FileSys)
    (h1 : a.clean = false) (h2 : a.show_config = false)
    (h3 : a.dirs.isEmpty = true) :
    (runMain a argv ce te fs0).raised = true
    ∧ (runMain a argv ce te fs0).procs = []
    ∧ (runMain a argv ce te fs0).fs "gentags.cmd" = some [argv]
    ∧ ∀ n, n ≠ "gentags.cmd" → (runMain a argv ce te fs0).fs n = fs0 n := by
  refine ⟨?_, ?_, ?_, ?_⟩
  · simp [runMain, h1, h2, h3]
  · simp [runMain, h1, h2, h3]
  · simp [runMain, h1, h2, h3, fsWrite]
  · intro n hn
    simp [runMain, h1, h2, h3, fsWrite, hn]

/-- Witness for C4 (amended): the default invocation with no `-d` raises
and leaves the config file unwritten. -/
theorem c4_config_error_witness :
    (runMain noDirsArgs "gentags.py" 0 0 emptyFs).raised = true
    ∧ (runMain noDirsArgs "gentags.py" 0 0 emptyFs).procs = []
    ∧ (runMain noDirsArgs "gentags.py" 0 0 emptyFs).fs "gentags.conf"
        = emptyFs "gentags.conf" := by
  have h := c4_config_error noDirsArgs "gentags.py" 0 0 emptyFs rfl rfl rfl
  exact ⟨h.1, h.2.1, h.2.2.2 "gentags.conf" (by decide)⟩

/-- Counterexample to C4 as stated: the empty-directory run does write a
file before failing — the command record `gentags.cmd` appears even
though it did not exist beforehand. -/
theorem c4_counterexample :
    emptyFs "gentags.cmd" = none
    ∧ (runMain noDirsArgs "gentags.py" 0 0 emptyFs).raised = true
    ∧ (runMain noDirsArgs "gentags.py" 0 0 emptyFs).fs "gentags.cmd"
        = some ["gentags.py"] :=
  ⟨rfl, by decide, by decide⟩

/-- C5 (amended): a show-config run prints the resolved settings and
returns without raising, invoking no external process and writing neither
the index nor the config file nor anything else — except the command
record file `gentags.cmd`, which the unconditional `save_command` step has
already written. -/
theorem c5_show_config (a : Args) (argv : String) (ce te : Nat) (fs0 : FileSys)
    (h1 : a.clean = false) (h2 : a.show_config = true) :
    (runMain a argv ce te fs0).raised = false
    ∧ (runMain a argv ce te fs0).procs = []
    ∧ (runMain a argv ce te fs0).fs "gentags.cmd" = some [argv]
    ∧ ∀ n, n ≠ "gentags.cmd" → (runMain a argv ce te fs0).fs n = fs0 n := by
  refine ⟨?_, ?_, ?_, ?_⟩
  · simp [runMain, h1, h2]
  · simp [runMain, h1, h2]
  · simp [runMain, h1, h2, fsWrite]
  · intro n hn
    simp [runMain, h1, h2, fsWrite, hn]

/-- Witness for C5 (amended): a concrete `-s` run writes neither index nor
config file and runs nothing. -/
theorem c5_show_config_witness :
    (runMain showArgs "gentags.py -s" 0 0 emptyFs).raised = false
    ∧ (runMain showArgs "gentags.py -s" 0 0 emptyFs).procs = []
    ∧ (runMain showArgs "gentags.py -s" 0 0 emptyFs).fs "gentags.files"
        = emptyFs "gentags.files" := by
  have h := c5_show_config showArgs "gentags.py -s" 0 0 emptyFs rfl rfl
  exact ⟨h.1, h.2.1, h.2.2.2 "gentags.files" (by decide)⟩

/-- Counterexample to C5 as stated: the show-config run performs a
file-system write after all — the command record `gentags.cmd` appears
even though it did not exist beforehand. -/
theorem c5_counterexample :
    emptyFs "gentags.cmd" = none
    ∧ (runMain showArgs "gentags.py -s" 0 0 emptyFs).raised = false
    ∧ (runMain showArgs "gentags.py -s" 0 0 emptyFs).procs = []
    ∧ (runMain showArgs "gentags.py -s" 0 0 emptyFs).fs "gentags.cmd"
        = some ["gentags.py -s"] :=
  ⟨rfl, by decide, by decide, by decide⟩

/-- C6: a clean run raises nothing and runs nothing; afterwards every name
in the fixed artifact list is absent (names already absent are skipped by
the existence guard rather than erroring) and every other file is exactly
as before. -/
theorem c6_clean (a : Args) (argv : String) (ce te : Nat) (fs0 : FileSys)
    (h : a.clean = true) :
    (runMain a argv ce te fs0).raised = false
    ∧ (runMain a argv ce te fs0).procs = []
    ∧ (∀ n, n ∈ cleanList a → (runMain a argv ce te fs0).fs n = none)
    ∧ (∀ n, n ∉ cleanList a → (runMain a argv ce te fs0).fs n = fs0 n) := by
  refine ⟨by simp [runMain, h], by simp [runMain, h], ?_, ?_⟩
  · intro n hn
    simp [runMain, h, removeExisting_apply, hn]
  · intro n hn
    have hcmd : n ≠ "gentags.cmd" := by
      intro he
      exact hn (he ▸ (by simp [cleanList]))
    simp [runMain, h, removeExisting_apply, hn, fsWrite, hcmd]

/-- Witness for C6: cleaning removes the present `tags` artifact and leaves
an unrelated file untouched, with no error raised. -/
theorem c6_clean_witness :
    (runMain cleanArgs "gentags.py -c" 0 0 demoFs).raised = false
    ∧ (runMain cleanArgs "gentags.py -c" 0 0 demoFs).fs "tags" = none
    ∧ (runMain cleanArgs "gentags.py -c" 0 0 demoFs).fs "other.txt"
        = demoFs "other.txt" := by
  have h := c6_clean cleanArgs "gentags.py -c" 0 0 demoFs rfl
  exact ⟨h.1, h.2.2.1 "tags" (by decide), h.2.2.2 "other.txt" (by decide)⟩

/-- C7: in a normal-mode run, cscope is invoked before ctags; a nonzero
cscope exit leaves cscope as the only invocation (ctags never runs), while
a zero cscope exit is followed by ctags; either way `main` returns without
raising, and the index and config files written earlier stay in place. -/
theorem c7_adapters (a : Args) (argv : String) (ce te : Nat) (fs0 : FileSys)
    (h1 : a.clean = false) (h2 : a.show_config = false)
    (h3 : a.dirs.isEmpty = false) (h4 : a.index_only = false) :
    (runMain a argv ce te fs0).raised = false
    ∧ (ce ≠ 0 → (runMain a argv ce te fs0).procs
        = ["cscope -bkq -i " ++ a.index_file])
    ∧ (ce = 0 → (runMain a argv ce te fs0).procs
        = ["cscope -bkq -i " ++ a.index_file, "ctags -L " ++ a.index_file])
    ∧ (runMain a argv ce te fs0).fs a.index_file
        = some (indexLines a.dirs a.depth a.exclude (resolveTypes a.types))
    ∧ (a.config_file ≠ a.index_file →
        (runMain a argv ce te fs0).fs a.config_file
          = some (configLines a (resolveTypes a.types))) := by
  refine ⟨?_, fun hne => ?_, fun hz => ?_, ?_, fun hcf => ?_⟩
  · by_cases hce : ce = 0 <;> simp [runMain, h1, h2, h3, h4, hce]
  · simp [runMain, h1, h2, h3, h4, hne]
  · simp [runMain, h1, h2, h3, h4, hz]
  · by_cases hce : ce = 0 <;> simp [runMain, h1, h2, h3, h4, hce, fsWrite]
  · by_cases hce : ce = 0 <;> simp [runMain, h1, h2, h3, h4, hce, fsWrite, hcf]

/-- Witness for C7: with cscope exiting 1, the run invokes cscope only, and
ctags is never reached; `main` still returns normally. -/
theorem c7_adapters_witness :
    (runMain normalArgs "gentags.py -d root" 1 0 emptyFs).raised = false
    ∧ (runMain normalArgs "gentags.py -d root" 1 0 emptyFs).procs
        = ["cscope -bkq -i " ++ normalArgs.index_file] := by
  have h := c7_adapters normalArgs "gentags.py -d root" 1 0 emptyFs rfl rfl rfl rfl
  exact ⟨h.1, h.2.1 (by decide)⟩

/-- C9: when the traversal collects nothing, the run does not fail: the
warning flag is set, an empty index file is still written (overwriting any
previous content), and processing continues to the external tools when not
in index-only mode. -/
theorem c9_empty_result (a : Args) (argv : String) (ce te : Nat) (fs0 : FileSys)
    (h1 : a.clean = false) (h2 : a.show_config = false)
    (h3 : a.dirs.isEmpty = false)
    (h4 : a.dirs.flatMap
        (fun p => walk a.depth a.exclude (resolveTypes a.types) p.1 p.1 p.2)
      = []) :
    (runMain a argv ce te fs0).raised = false
    ∧ (runMain a argv ce te fs0).warned = true
    ∧ (runMain a argv ce te fs0).fs a.index_file = some []
    ∧ (a.index_only = false → (runMain a argv ce te fs0).procs ≠ []) := by
  have hlines : indexLines a.dirs a.depth a.exclude (resolveTypes a.types) = [] := by
    simp [indexLines, h4]
  refine ⟨?_, ?_, ?_, fun hio => ?_⟩
  · by_cases hio : a.index_only <;> by_cases hce : ce = 0 <;>
      simp [runMain, h1, h2, h3, hio, hce]
  · by_cases hio : a.index_only <;> by_cases hce : ce = 0 <;>
      simp [runMain, h1, h2, h3, hio, hce, hlines]
  · by_cases hio : a.index_only <;> by_cases hce : ce = 0 <;>
      simp [runMain, h1, h2, h3, hio, hce, hlines, fsWrite]
  · by_cases hce : ce = 0 <;> simp [runMain, h1, h2, h3, hio, hce]

/-- Witness for C9: scanning a root holding only `readme.md` with the C/C++
filter warns, writes an empty index, and still proceeds to the tools. -/
theorem c9_empty_result_witness :
    (runMain noMatchArgs "gentags.py -d root" 0 0 emptyFs).warned = true
    ∧ (runMain noMatchArgs "gentags.py -d root" 0 0 emptyFs).fs "gentags.files"
        = some []
    ∧ (runMain noMatchArgs "gentags.py -d root" 0 0 emptyFs).procs ≠ [] := by
  have h := c9_empty_result noMatchArgs "gentags.py -d root" 0 0 emptyFs rfl rfl rfl
    (by simp only [noMatchArgs, noMatchTree, List.flatMap_cons, List.flatMap_nil,
          walk, walkChildren]
        decide)
  exact ⟨h.2.1, h.2.2.1, h.2.2.2 rfl⟩
